import Mathlib

/-!
# SteamSaleTracker — verification of the subscription store and poll engine

Shallow embedding of `main.py` of the `astrbot_plugin_SteamSaleTracker`
plugin.  The persisted subscription store (`monitor_list.json`) is a JSON
object mapping an AppID string to a per-game record; we model it as an
insertion-ordered association list with unique keys, which matches Python
`dict` semantics (iteration in insertion order, update-in-place keeps the
position).  Python `None` values and absent optional keys are modelled with
`Option`; a caught/raised exception of a fallible routine is modelled by an
`Option`/flag result.  Prices are `float`s obtained as `cents / 100` in the
source; we model them as rationals.
-/

namespace SteamSaleTracker

/-- One entry of `monitor_list.json`: the per-game record created by
`steamremind_command` and mutated by `monitor_prices`.  `last_price`,
`original_price`, `discount` are `None` until the first successful poll
(modelled `none`); `region` models the `"region"` key read with
`game_info.get("region", "cn")`. -/
structure Item where
  name : String
  appid : String
  region : Option String
  last_price : Option ℚ
  original_price : Option ℚ
  discount : Option ℤ
  subscribers : List String
  deriving Repr, DecidableEq

/-- The persisted store: Python dict keyed by the AppID string. -/
abbrev Store := List (String × Item)

/-- Python `d[k]` / `k in d` lookup: first (unique) binding for the key. -/
def dictGet (ml : Store) (gid : String) : Option Item :=
  match ml with
  | [] => none
  | kv :: rest => if kv.1 = gid then some kv.2 else dictGet rest gid

/-- Python `d[k] = v`: update in place when the key exists (keeping its
position, as Python dicts do), otherwise append at the end. -/
def dictSet (gid : String) (v : Item) (ml : Store) : Store :=
  match ml with
  | [] => [(gid, v)]
  | kv :: rest =>
    if kv.1 = gid then (gid, v) :: rest else kv :: dictSet gid v rest

/-- Python `del d[k]`. -/
def dictRemove (gid : String) (ml : Store) : Store :=
  ml.filter (fun kv => kv.1 ≠ gid)

/-- The subscriber-set of a game, `[]` when the game is not monitored. -/
def subsOf (gid : String) (ml : Store) : List String :=
  ((dictGet ml gid).map Item.subscribers).getD []

/-- Membership of a subscriber address in a game's subscriber set. -/
def memberOf (gid origin : String) (ml : Store) : Bool :=
  decide (origin ∈ subsOf gid ml)

/-! ## Subscribe / unsubscribe (the critical sections of
`steamremind_command` and `steamrmdremove_command`)

Each of these functions is the body of one `async with self.monitor_list_lock`
block of the source: read `monitor_list.json`, modify the dict, write it
back.  The whole function is therefore one atomic action on the durable
store. -/

/-- Reply emitted by the subscribe command inside the critical section. -/
inductive SubReply where
  | alreadySubscribed
  | newlySubscribed
  deriving Repr, DecidableEq

/-- The fresh record created for a game that is not yet monitored
(`steamremind_command`, lines 494–502).  The region is the fixed local
constant `region = "cn"` of the handler — never user input. -/
def newItem (gid gname : String) : Item :=
  { name := gname, appid := gid, region := some "cn",
    last_price := none, original_price := none, discount := none,
    subscribers := [] }

/-- Critical section of `steamremind_command` (lines 486–520): create the
record if absent, then append the caller's `unified_msg_origin` to the
subscriber list unless already present, and persist. -/
def subscribeStore (gid gname origin : String) (ml : Store) :
    Store × SubReply :=
  let ml1 := match dictGet ml gid with
    | none => dictSet gid (newItem gid gname) ml
    | some _ => ml
  match dictGet ml1 gid with
  | some info =>
    if origin ∈ info.subscribers then (ml1, .alreadySubscribed)
    else (dictSet gid { info with subscribers := info.subscribers ++ [origin] } ml1,
          .newlySubscribed)
  | none => (ml1, .alreadySubscribed)  -- unreachable: the key was just ensured

/-- Reply emitted by the unsubscribe command inside the critical section. -/
inductive UnsubReply where
  | notMonitored
  | removed
  | notSubscribed
  deriving Repr, DecidableEq

/-- Critical section of `steamrmdremove_command` (lines 576–611): remove the
caller's origin from the subscriber list (Python `list.remove` deletes the
first occurrence); if the list becomes empty, delete the game record
entirely; persist.  An unmonitored game returns early without writing. -/
def unsubscribeStore (gid origin : String) (ml : Store) :
    Store × UnsubReply :=
  match dictGet ml gid with
  | none => (ml, .notMonitored)
  | some info =>
    if origin ∈ info.subscribers then
      let info' := { info with subscribers := info.subscribers.erase origin }
      if info'.subscribers.isEmpty then (dictRemove gid ml, .removed)
      else (dictSet gid info' ml, .removed)
    else (ml, .notSubscribed)

/-! ## Fuzzy resolver (`get_appid_by_name`, lines 168–195)

The similarity scorer is `rapidfuzz.fuzz.token_set_ratio`, an external
library function; we keep it as a parameter `score : String → String → ℕ`
(0–100 scale; it scores two identical strings 100).  `extractOne` models
`rapidfuzz.process.extractOne`: the best-scoring choice, earliest choice
winning ties.  A name dictionary is an association list name → AppID. -/

abbrev NameDict := List (String × ℕ)

/-- Lookup in a name → AppID dictionary. -/
def nameDictGet (d : NameDict) (nm : String) : Option ℕ :=
  match d with
  | [] => none
  | kv :: rest => if kv.1 = nm then some kv.2 else nameDictGet rest nm

/-- One step of the best-match scan underlying `process.extractOne`: keep
the incumbent unless the new choice scores strictly higher (so the earliest
best-scoring choice wins, as rapidfuzz does). -/
def extractStep (score : String → String → ℕ) (q : String)
    (acc : Option (String × ℕ)) (c : String) : Option (String × ℕ) :=
  match acc with
  | none => some (c, score q c)
  | some (b, sb) => if score q c > sb then some (c, score q c) else some (b, sb)

/-- Model of `process.extractOne(user_input, choices, scorer=score)`:
`none` on an empty choice list, otherwise the choice with the maximal
score (the first such choice on ties). -/
def extractOne (score : String → String → ℕ) (q : String)
    (choices : List String) : Option (String × ℕ) :=
  choices.foldl (extractStep score q) none

/-- Model of `get_appid_by_name(user_input, target_dict)` (lines 168–195).  Python's
`if not target_dict:` treats an **empty** caller-supplied dict like `None`,
so the full catalog `app_dict_all` is substituted; a second emptiness check
returns `None` when that too is empty.  Returns `[AppID, matched_name]`
when the best match scores ≥ 70, else `None`.  (`target_dict[matched_name]`
cannot fail since the matched name is a key; the `getD 0` default is never
used.) -/
def get_appid_by_name (score : String → String → ℕ) (user_input : String)
    (target_dict app_dict_all : NameDict) : Option (ℕ × String) :=
  let td := if target_dict.isEmpty then app_dict_all else target_dict
  if td.isEmpty then none
  else
    match extractOne score user_input (td.map Prod.fst) with
    | none => none
    | some (matched_name, sc) =>
      if sc ≥ 70 then some ((nameDictGet td matched_name).getD 0, matched_name)
      else none

/-! ## Price source client (`get_steam_price`, lines 197–243) -/

/-- The `price_overview` block of the Steam appdetails response, in minor
currency units. -/
structure PriceOverview where
  final : ℤ
  initial : ℤ
  discount_percent : ℤ
  currency : String
  deriving Repr, DecidableEq

/-- The `"data"` block, as far as the client reads it. -/
structure GameData where
  is_free : Bool
  price_overview : Option PriceOverview
  deriving Repr, DecidableEq

/-- The `res.get(str(appid))` block: success flag plus optional data. -/
structure AppEntry where
  success : Bool
  data : Option GameData
  deriving Repr, DecidableEq

/-- What one appdetails request can come back as.  `exc` models any
transport/JSON exception raised inside the `try`; `ok none` models a JSON
body without the appid key (`res.get(str(appid))` → `None`). -/
inductive FetchResponse where
  | exc
  | ok (entry : Option AppEntry)
  deriving Repr, DecidableEq

/-- The normalized snapshot returned on success. -/
structure PriceData where
  is_free : Bool
  current_price : ℚ
  original_price : ℚ
  discount : ℤ
  currency : String
  deriving Repr, DecidableEq

/-- Model of `get_steam_price` (lines 197–243) as a function of the response.
`none` is Python `None` (“not available”); every exception path is caught
by the enclosing `try`/`except` and also yields `None` — the accessing of a
missing `"data"` key under `success` raises and is caught likewise. -/
def get_steam_price (r : FetchResponse) : Option PriceData :=
  match r with
  | .exc => none
  | .ok none => none
  | .ok (some entry) =>
    if !entry.success then none
    else match entry.data with
      | none => none  -- data["data"] raises KeyError, caught by the except
      | some gd =>
        if gd.is_free then
          some { is_free := true, current_price := 0, original_price := 0,
                 discount := 100, currency := "FREE" }
        else match gd.price_overview with
          | none => none
          | some po =>
            some { is_free := false,
                   current_price := (po.final : ℚ) / 100,
                   original_price := (po.initial : ℚ) / 100,
                   discount := po.discount_percent,
                   currency := po.currency }

/-! ## Subscriber-address parsing (`_parse_unified_origin`, lines 245–273)

The Python function indexes `parts[2]` unconditionally (IndexError when the
string has fewer than three `:`-separated fields) and unpacks
`identifiers.split("_")` into exactly two variables (ValueError when the
identifier field holds two or more underscores).  We model a raised
exception as `none`. -/

structure ParsedOrigin where
  platform : String
  message_type : String
  user_id : Option String
  group_id : Option String
  deriving Repr, DecidableEq

/-- Python `s.split(sep)` for a single-character separator, on the
character list. -/
def splitChars (sep : Char) : List Char → List Char → List (List Char)
  | [], acc => [acc.reverse]
  | c :: cs, acc =>
    if c = sep then acc.reverse :: splitChars sep cs []
    else splitChars sep cs (c :: acc)

/-- Python `s.split(sep)` for a single-character separator. -/
def pySplit (s : String) (sep : Char) : List String :=
  (splitChars sep s.data []).map (fun l => String.mk l)

def parseUnifiedOrigin (origin : String) : Option ParsedOrigin :=
  let parts := pySplit origin ':'
  if parts.length < 3 then none  -- parts[2] raises IndexError
  else
    let platform := parts.getD 0 ""
    let message_type := parts.getD 1 ""
    let identifiers := parts.getD 2 ""
    if message_type = "FriendMessage" then
      some ⟨platform, message_type, some identifiers, none⟩
    else if message_type = "GroupMessage" then
      let us := pySplit identifiers '_'
      if us.length = 2 then
        some ⟨platform, message_type, some (us.getD 0 ""), some (us.getD 1 "")⟩
      else if us.length = 1 then
        some ⟨platform, message_type, none, some identifiers⟩
      else none  -- user_id, group_id = identifiers.split("_") raises ValueError
    else some ⟨platform, message_type, none, none⟩

/-! ## Poll-diff-notify engine (`monitor_prices`, lines 275–395)

`monitor_prices` reads the store once (under the lock), iterates the item
snapshot `games_to_check`, and for each changed item writes the whole
updated dict back (under a fresh lock acquisition) before yielding one
notification tuple per subscriber.  We model one invocation as a fold:
the result carries the final in-memory dict (= content of the last write),
the yielded notifications in order, the list of file snapshots written, and
an `ok` flag — `false` when a malformed subscriber address raised inside
the subscriber loop and aborted the round (the generator's exception
surfaces in `run_monitor_prices` and ends the pass). -/

inductive ChangeKind where
  | free
  | increase
  | decrease
  deriving Repr, DecidableEq

/-- One yielded tuple `(unified_msg_origin, at_members, msg_components)`;
the payload fields are the data interpolated into the message components,
including the AppID used in the purchase link. -/
structure Notif where
  origin : String
  atMembers : List String
  gameId : String
  kind : ChangeKind
  oldPrice : ℚ
  newPrice : ℚ
  originalPrice : ℚ
  discount : ℤ
  deriving Repr, DecidableEq

/-- Update of the three price fields of one game's record in the dict
(`current_monitor_list[game_id]["last_price"] = ...` etc.). -/
def updPrice (p : PriceData) (v : Item) : Item :=
  { v with last_price := some p.current_price,
           original_price := some p.original_price,
           discount := some p.discount }

def dictUpdatePrice (gid : String) (p : PriceData) (ml : Store) : Store :=
  ml.map (fun kv => if kv.1 = gid then (kv.1, updPrice p kv.2) else kv)

/-- The subscriber loop of a changed item (lines 379–393): parse each
subscriber origin; a `FriendMessage` origin yields with no at-members, a
`GroupMessage` origin yields with the user id as at-member when the
user-id field is non-empty (Python truthiness), any other message type
yields nothing.  A malformed origin raises out of the generator: nothing
more is yielded and the round aborts (`false`). -/
def notifySubs (gid : String) (kind : ChangeKind) (oldP : ℚ) (p : PriceData) :
    List String → List Notif × Bool
  | [] => ([], true)
  | sub :: rest =>
    match parseUnifiedOrigin sub with
    | none => ([], false)
    | some po =>
      let here : List Notif :=
        if po.message_type = "FriendMessage" then
          [{ origin := sub, atMembers := [], gameId := gid, kind := kind,
             oldPrice := oldP, newPrice := p.current_price,
             originalPrice := p.original_price, discount := p.discount }]
        else if po.message_type = "GroupMessage" then
          let ats := match po.user_id with
            | some u => if u ≠ "" then [u] else []
            | none => []
          [{ origin := sub, atMembers := ats, gameId := gid, kind := kind,
             oldPrice := oldP, newPrice := p.current_price,
             originalPrice := p.original_price, discount := p.discount }]
        else []
      ((here ++ (notifySubs gid kind oldP p rest).1),
       (notifySubs gid kind oldP p rest).2)

/-- Result of (part of) one engine round. -/
structure MRes where
  store : Store
  notifs : List Notif
  writes : List Store
  ok : Bool
  deriving Repr, DecidableEq

/-- The body of the `for game_id, game_info in games_to_check:` loop for one
item (lines 295–395).  `fetch` is the price oracle `get_steam_price`
specialised to this round; it is consulted at
`(game_id, game_info.get("region", "cn"))`. -/
def monitorItem (fetch : String → String → Option PriceData)
    (gid : String) (info : Item) (acc : Store) : MRes :=
  match fetch gid (info.region.getD "cn") with
  | none => { store := acc, notifs := [], writes := [], ok := true }
  | some p =>
    match info.last_price with
    | none =>
      -- first observation: record baseline, persist, no notification
      let acc' := dictUpdatePrice gid p acc
      { store := acc', notifs := [], writes := [acc'], ok := true }
    | some lp =>
      if p.current_price - lp ≠ 0 then
        let kind : ChangeKind :=
          if p.is_free then .free
          else if p.current_price - lp > 0 then .increase
          else .decrease
        let acc' := dictUpdatePrice gid p acc
        let nr := notifySubs gid kind lp p info.subscribers
        { store := acc', notifs := nr.1, writes := [acc'], ok := nr.2 }
      else { store := acc, notifs := [], writes := [], ok := true }

/-- The loop over `games_to_check`, threading the in-memory dict. -/
def monitorRound (fetch : String → String → Option PriceData) :
    List (String × Item) → Store → MRes
  | [], acc => { store := acc, notifs := [], writes := [], ok := true }
  | (gid, info) :: rest, acc =>
    let r := monitorItem fetch gid info acc
    if r.ok then
      let r' := monitorRound fetch rest r.store
      { store := r'.store, notifs := r.notifs ++ r'.notifs,
        writes := r.writes ++ r'.writes, ok := r'.ok }
    else { store := r.store, notifs := r.notifs, writes := r.writes, ok := false }

/-- One invocation of `monitor_prices` on store `ml`: `games_to_check` is
the item snapshot read from the file at the start of the round. -/
def monitorPrices (fetch : String → String → Option PriceData) (ml : Store) :
    MRes :=
  monitorRound fetch ml ml

/-! ## Catalog sync (`get_app_list`, lines 67–153)

The paginated fetch loop runs while `have_more_results`; each iteration is
one HTTP page.  A non-200 status or a body without a `"response"` key only
`break`s the loop — the partial accumulation is then still processed and
written over `game_list.json`.  Only a raised exception reaches the
`except`, which sets the in-memory dict to `{}` and skips the write.  The
`finally` block loads the persisted file back whenever the in-memory dict
ended up empty and the file exists.  (`last_appid` only affects the request
URL, not the observable control flow over a given page sequence, so pages
are modelled as the sequence of responses received.) -/

/-- The `"response"` block of one GetAppList page. -/
structure PageBody where
  apps : List (String × ℕ)
  have_more_results : Bool
  deriving Repr, DecidableEq

/-- One page request outcome: raised exception, or an HTTP response with a
status and (for status 200) a parsed body — `none` models a body without
the `"response"` key. -/
inductive Page where
  | exc
  | ok (status : ℕ) (body : Option PageBody)
  deriving Repr, DecidableEq

/-- The `while have_more_results:` loop, accumulating `all_apps`.  `none`
models an exception escaping to the `except` block (also when the modelled
page sequence is exhausted while more pages are requested); `some acc` is
normal exit or `break`. -/
def fetchLoop : List Page → List (String × ℕ) → Option (List (String × ℕ))
  | [], _ => none
  | p :: ps, acc =>
    match p with
    | .exc => none
    | .ok status body =>
      if status ≠ 200 then some acc  -- break, keeping the accumulation
      else match body with
        | none => some acc  -- "response" missing: break, keeping the accumulation
        | some b =>
          let acc' := acc ++ b.apps
          if b.have_more_results then fetchLoop ps acc' else some acc'

/-- The dict comprehension building name to appid — last write wins per
name, first occurrence fixes the position. -/
def dictOfApps (apps : List (String × ℕ)) : NameDict :=
  apps.foldl
    (fun d nv =>
      if d.any (fun kv => kv.1 = nv.1) then
        d.map (fun kv => if kv.1 = nv.1 then (kv.1, nv.2) else kv)
      else d ++ [nv])
    []

/-- Durable + in-memory outcome of one `get_app_list` invocation. -/
structure SyncState where
  file : Option NameDict
  app_dict_all : NameDict
  deriving Repr, DecidableEq

/-- Model of `get_app_list` (lines 67–153) over a page sequence and the previous
content of `game_list.json` (`none` = file absent).  The success path
builds the dict and writes it; the exception path leaves the file alone and
clears the dict; the `finally` fallback re-reads the file when the dict is
empty (the modelled read succeeds). -/
def get_app_list (pages : List Page) (file0 : Option NameDict) : SyncState :=
  let afterTry : SyncState :=
    match fetchLoop pages [] with
    | some apps =>
      let d := dictOfApps apps
      { file := some d, app_dict_all := d }
    | none => { file := file0, app_dict_all := [] }
  if afterTry.app_dict_all.isEmpty then
    match afterTry.file with
    | some f => { afterTry with app_dict_all := f }
    | none => afterTry
  else afterTry

/-! ## Dictionary lemmas -/

theorem dictGet_set_self (gid : String) (v : Item) (ml : Store) :
    dictGet (dictSet gid v ml) gid = some v := by
  induction ml with
  | nil => simp [dictGet, dictSet]
  | cons kv rest ih =>
    by_cases h : kv.1 = gid
    · simp [dictGet, dictSet, h]
    · simp [dictGet, dictSet, h, ih]

theorem dictGet_set_other {g gid : String} (h : g ≠ gid) (v : Item) (ml : Store) :
    dictGet (dictSet gid v ml) g = dictGet ml g := by
  have h' : gid ≠ g := Ne.symm h
  induction ml with
  | nil => simp [dictGet, dictSet, h']
  | cons kv rest ih =>
    by_cases hk : kv.1 = gid
    · simp [dictGet, dictSet, hk, h']
    · by_cases hg : kv.1 = g <;> simp [dictGet, dictSet, hk, hg, h, ih]

theorem dictGet_remove_self (gid : String) (ml : Store) :
    dictGet (dictRemove gid ml) gid = none := by
  induction ml with
  | nil => simp [dictGet, dictRemove]
  | cons kv rest ih =>
    by_cases h : kv.1 = gid
    · simpa [dictRemove, List.filter, h] using ih
    · simpa [dictGet, dictRemove, List.filter, h] using ih

theorem key_not_mem_remove (gid : String) (ml : Store) :
    gid ∉ (dictRemove gid ml).map Prod.fst := by
  intro hmem
  rcases List.mem_map.mp hmem with ⟨kv, hkv, hfst⟩
  rcases List.mem_filter.mp hkv with ⟨_, hne⟩
  simp [hfst] at hne

theorem dictSet_set_same (gid : String) (v w : Item) (ml : Store) :
    dictSet gid v (dictSet gid w ml) = dictSet gid v ml := by
  induction ml with
  | nil => simp [dictSet]
  | cons kv rest ih =>
    by_cases h : kv.1 = gid
    · simp [dictSet, h]
    · simp [dictSet, h, ih]

theorem mem_dictSet {kv : String × Item} {gid : String} {v : Item} {ml : Store}
    (h : kv ∈ dictSet gid v ml) : kv = (gid, v) ∨ kv ∈ ml := by
  induction ml with
  | nil => simpa [dictSet] using h
  | cons kw rest ih =>
    by_cases hk : kw.1 = gid
    · rw [dictSet, if_pos hk] at h
      rcases List.mem_cons.mp h with h1 | h1
      · exact Or.inl h1
      · exact Or.inr (List.mem_cons_of_mem _ h1)
    · rw [dictSet, if_neg hk] at h
      rcases List.mem_cons.mp h with h1 | h1
      · exact Or.inr (h1 ▸ List.mem_cons_self kw rest)
      · rcases ih h1 with h2 | h2
        · exact Or.inl h2
        · exact Or.inr (List.mem_cons_of_mem _ h2)

theorem dictGet_append_of_not_mem {gid : String} {l1 : Store} (l2 : Store)
    (h : gid ∉ l1.map Prod.fst) :
    dictGet (l1 ++ l2) gid = dictGet l2 gid := by
  induction l1 with
  | nil => simp
  | cons kv rest ih =>
    have h1 : kv.1 ≠ gid := fun hh => h (by simp [hh])
    have h2 : gid ∉ rest.map Prod.fst := fun hh => h (by simp [hh])
    simp [dictGet, h1, ih h2]

/-! ## Subscriber-set lemmas for the two command critical sections -/

/-- Effect of the subscribe critical section on one game's subscriber set. -/
theorem subsOf_subscribe (gid gname origin : String) (ml : Store) :
    subsOf gid (subscribeStore gid gname origin ml).1 =
      (if origin ∈ subsOf gid ml then subsOf gid ml
       else subsOf gid ml ++ [origin]) := by
  cases hget : dictGet ml gid with
  | none =>
    simp only [subscribeStore, hget, subsOf]
    rw [dictGet_set_self]
    simp [newItem, dictSet_set_same, dictGet_set_self]
  | some info =>
    simp only [subscribeStore, hget, subsOf]
    by_cases hmem : origin ∈ info.subscribers
    · simp [hmem, hget]
    · simp [hmem, hget, dictGet_set_self]

/-- Effect of the unsubscribe critical section on one game's subscriber set. -/
theorem subsOf_unsubscribe (gid origin : String) (ml : Store) :
    subsOf gid (unsubscribeStore gid origin ml).1 =
      (if origin ∈ subsOf gid ml then (subsOf gid ml).erase origin
       else subsOf gid ml) := by
  cases hget : dictGet ml gid with
  | none => simp [unsubscribeStore, hget, subsOf]
  | some info =>
    simp only [unsubscribeStore, hget, subsOf, Option.map_some', Option.getD_some]
    split_ifs with hmem hemp
    · rw [dictGet_remove_self]
      simp only [Option.map_none', Option.getD_none]
      exact (List.isEmpty_iff.mp hemp).symm
    · rw [dictGet_set_self]
      rfl
    · simp [hget]

theorem memberOf_subscribe_self (gid gname origin : String) (ml : Store) :
    memberOf gid origin (subscribeStore gid gname origin ml).1 = true := by
  simp only [memberOf, subsOf_subscribe]
  split_ifs with h <;> simp [h]

theorem memberOf_subscribe_other {x y : String} (h : x ≠ y)
    (gid gname : String) (ml : Store) :
    memberOf gid x (subscribeStore gid gname y ml).1 = memberOf gid x ml := by
  simp only [memberOf, subsOf_subscribe]
  split_ifs with hy <;> simp [h]

theorem memberOf_unsubscribe_self {gid a : String} {ml : Store}
    (hcount : (subsOf gid ml).count a ≤ 1) :
    memberOf gid a (unsubscribeStore gid a ml).1 = false := by
  simp only [memberOf, subsOf_unsubscribe]
  split_ifs with hmem
  · have h0 : ((subsOf gid ml).erase a).count a = 0 := by
      have := List.count_erase_self a (subsOf gid ml)
      have h1 : 1 ≤ (subsOf gid ml).count a := List.one_le_count_iff.mpr hmem
      omega
    simpa using List.count_eq_zero.mp h0
  · simpa using hmem

theorem memberOf_unsubscribe_other {x a : String} (h : x ≠ a)
    (gid : String) (ml : Store) :
    memberOf gid x (unsubscribeStore gid a ml).1 = memberOf gid x ml := by
  simp only [memberOf, subsOf_unsubscribe]
  split_ifs with hmem
  · simp [List.mem_erase_of_ne h]
  · rfl

theorem count_subscribe_le_one {gid origin : String} {ml : Store}
    (hcount : (subsOf gid ml).count origin ≤ 1) (gname : String) :
    (subsOf gid (subscribeStore gid gname origin ml).1).count origin ≤ 1 := by
  rw [subsOf_subscribe]
  split_ifs with hmem
  · exact hcount
  · have h0 : (subsOf gid ml).count origin = 0 := List.count_eq_zero.mpr hmem
    simp [List.count_append, h0]

theorem count_unsubscribe_le_one {gid origin : String} {ml : Store}
    (hcount : (subsOf gid ml).count origin ≤ 1) :
    (subsOf gid (unsubscribeStore gid origin ml).1).count origin ≤ 1 := by
  rw [subsOf_unsubscribe]
  split_ifs with hmem
  · have := List.count_erase_self origin (subsOf gid ml)
    omega
  · exact hcount

/-! ## C4 machinery: sequences of subscribe/unsubscribe on one
(identifier, subscriber address) pair -/

/-- A command on the fixed (identifier, address) pair. -/
inductive SubOp where
  | sub
  | unsub
  deriving Repr, DecidableEq

/-- Run one command's critical section on the store. -/
def applyOp (gid gname origin : String) (ml : Store) : SubOp → Store
  | .sub => (subscribeStore gid gname origin ml).1
  | .unsub => (unsubscribeStore gid origin ml).1

/-- The obvious reference semantics of membership: subscribing makes the
address a member, unsubscribing makes it a non-member. -/
def refStep : Bool → SubOp → Bool
  | _, .sub => true
  | _, .unsub => false

/-- Auxiliary for C4: one command step turns the concrete membership into
the reference membership, preserving the no-duplicate bound. -/
theorem foldOps_membership (gid gname origin : String) :
    ∀ (ops : List SubOp) (ml : Store),
      (subsOf gid ml).count origin ≤ 1 →
      memberOf gid origin (ops.foldl (applyOp gid gname origin) ml) =
        ops.foldl refStep (memberOf gid origin ml)
  | [], ml, _ => rfl
  | op :: ops, ml, hcount => by
    rw [List.foldl_cons, List.foldl_cons]
    cases op with
    | sub =>
      have h1 := foldOps_membership gid gname origin ops
        ((subscribeStore gid gname origin ml).1)
        (count_subscribe_le_one hcount gname)
      simp only [applyOp, refStep]
      rw [h1, memberOf_subscribe_self]
    | unsub =>
      have h1 := foldOps_membership gid gname origin ops
        ((unsubscribeStore gid origin ml).1)
        (count_unsubscribe_le_one hcount)
      simp only [applyOp, refStep]
      rw [h1, memberOf_unsubscribe_self hcount]

/-- C4: Subscribe is idempotent, unsubscribe of a non-member is a no-op:
for every sequence of subscribe/unsubscribe commands on one
(identifier, address) pair (starting from any store in which the address is
not duplicated in that item's subscriber list — true of every store the
commands themselves build), the final membership equals the reference fold
of the operations; a subscribe of an already-present address leaves the
store unchanged and reports already-subscribed; an unsubscribe of an absent
address on a monitored item leaves the store unchanged and reports
not-subscribed. -/
theorem C4_idempotent_ops (gid gname origin : String) (ml : Store)
    (hcount : (subsOf gid ml).count origin ≤ 1) :
    (∀ ops : List SubOp,
      memberOf gid origin (ops.foldl (applyOp gid gname origin) ml) =
        ops.foldl refStep (memberOf gid origin ml)) ∧
    (origin ∈ subsOf gid ml →
      subscribeStore gid gname origin ml = (ml, .alreadySubscribed)) ∧
    (∀ info, dictGet ml gid = some info → origin ∉ info.subscribers →
      unsubscribeStore gid origin ml = (ml, .notSubscribed)) := by
  refine ⟨fun ops => foldOps_membership gid gname origin ops ml hcount, ?_, ?_⟩
  · intro hmem
    have hget : ∃ info, dictGet ml gid = some info := by
      by_contra hn
      push_neg at hn
      cases hd : dictGet ml gid with
      | none => simp [subsOf, hd] at hmem
      | some info => exact hn info hd
    rcases hget with ⟨info, hget⟩
    have hmem' : origin ∈ info.subscribers := by
      simpa [subsOf, hget] using hmem
    simp [subscribeStore, hget, hmem']
  · intro info hget hmem
    simp [unsubscribeStore, hget, hmem]

/-- Witness for C4 at a concrete run: subscribe twice then unsubscribe once
leaves the address unsubscribed, matching the reference fold. -/
theorem C4_idempotent_ops_witness :
    memberOf "10" "p:FriendMessage:u"
        (([SubOp.sub, SubOp.sub, SubOp.unsub]).foldl
          (applyOp "10" "G" "p:FriendMessage:u") []) =
      ([SubOp.sub, SubOp.sub, SubOp.unsub]).foldl refStep
        (memberOf "10" "p:FriendMessage:u" []) :=
  (C4_idempotent_ops "10" "G" "p:FriendMessage:u" [] (by decide)).1
    [SubOp.sub, SubOp.sub, SubOp.unsub]

/-! ## C1: atomicity of the store mutations -/

theorem count_subscribe_other {a b : String} (hab : a ≠ b)
    (gid gname : String) (ml : Store) :
    (subsOf gid (subscribeStore gid gname b ml).1).count a =
      (subsOf gid ml).count a := by
  rw [subsOf_subscribe]
  split_ifs with hmem
  · rfl
  · rw [List.count_append]
    have h0 : List.count a [b] = 0 := by
      apply List.count_eq_zero.mpr
      simp [hab]
    omega

/-- A monitored item with an uninitialized price and one subscriber, as the
subscribe command creates it; the fixture for the C1 interleaving. -/
def engineItem : Item :=
  { name := "G", appid := "100", region := some "cn",
    last_price := none, original_price := none, discount := none,
    subscribers := ["p:FriendMessage:alice"] }

def engineStore0 : Store := [("100", engineItem)]

/-- The snapshot fetched for AppID "100" in the fixtures. -/
def engineP : PriceData :=
  { is_free := false, current_price := 5, original_price := 20,
    discount := 75, currency := "CNY" }

/-- A price oracle for the round: AppID "100" fetches successfully. -/
def engineFetch : String → String → Option PriceData := fun gid _ =>
  if gid = "100" then some engineP else none

/-- C1 counterexample:  The Engine's per-item update is *not* one
read-modify-write-persist unit: `monitor_prices` reads the store under one
lock acquisition (line 285) and persists under a separate acquisition
(lines 316–318 / 374–376).  Interleaving: (1) the Engine reads the store
(content `engineStore0`); (2) a subscribe command for bob runs its whole
critical section and completes, so the durable store now contains bob;
(3) the Engine finishes the item and persists the dict derived from its
earlier read — the final durable state no longer contains bob.  A completed
update is lost, refuting the claim that every interleaving preserves both
effects. -/
theorem C1_counterexample :
    memberOf "100" "p:FriendMessage:bob"
        (subscribeStore "100" "G" "p:FriendMessage:bob" engineStore0).1 = true ∧
    memberOf "100" "p:FriendMessage:bob"
        (monitorPrices engineFetch engineStore0).store = false := by
  decide

/-- C1 amended:  The two command handlers (subscribe, unsubscribe) do
run read-modify-persist atomically inside the single exclusive section, so
no interleaving of command invocations loses a completed command update:
for any store, a subscribe of `b` and an unsubscribe of `a ≠ b` (with `a`
not duplicated in the item's subscriber list) leave, in either execution
order, a store that reflects both effects.  The Engine's per-item update,
however, reads under one lock acquisition and persists under a separate
one, so a command completing in between is overwritten (see the
counterexample). -/
theorem C1_amended_commands (ml : Store) (gid gname a b : String)
    (hab : a ≠ b) (hcount : (subsOf gid ml).count a ≤ 1) :
    (memberOf gid b (unsubscribeStore gid a (subscribeStore gid gname b ml).1).1 = true ∧
     memberOf gid a (unsubscribeStore gid a (subscribeStore gid gname b ml).1).1 = false) ∧
    (memberOf gid b (subscribeStore gid gname b (unsubscribeStore gid a ml).1).1 = true ∧
     memberOf gid a (subscribeStore gid gname b (unsubscribeStore gid a ml).1).1 = false) := by
  refine ⟨⟨?_, ?_⟩, ?_, ?_⟩
  · rw [memberOf_unsubscribe_other (Ne.symm hab), memberOf_subscribe_self]
  · exact memberOf_unsubscribe_self
      (by rw [count_subscribe_other hab]; exact hcount)
  · exact memberOf_subscribe_self ..
  · rw [memberOf_subscribe_other hab, memberOf_unsubscribe_self hcount]

/-- Witness for C1 (amended): a concrete store with alice subscribed; both
orders of (subscribe bob, unsubscribe alice) keep bob and drop alice. -/
theorem C1_amended_commands_witness :
    (memberOf "100" "p:FriendMessage:bob"
        (unsubscribeStore "100" "p:FriendMessage:alice"
          (subscribeStore "100" "G" "p:FriendMessage:bob" engineStore0).1).1 = true ∧
     memberOf "100" "p:FriendMessage:alice"
        (unsubscribeStore "100" "p:FriendMessage:alice"
          (subscribeStore "100" "G" "p:FriendMessage:bob" engineStore0).1).1 = false) ∧
    (memberOf "100" "p:FriendMessage:bob"
        (subscribeStore "100" "G" "p:FriendMessage:bob"
          (unsubscribeStore "100" "p:FriendMessage:alice" engineStore0).1).1 = true ∧
     memberOf "100" "p:FriendMessage:alice"
        (subscribeStore "100" "G" "p:FriendMessage:bob"
          (unsubscribeStore "100" "p:FriendMessage:alice" engineStore0).1).1 = false) :=
  C1_amended_commands engineStore0 "100" "G" "p:FriendMessage:alice"
    "p:FriendMessage:bob" (by decide) (by decide)

/-! ## Per-item invariants preserved by every store mutation -/

theorem dictGet_mem {ml : Store} {gid : String} {info : Item}
    (h : dictGet ml gid = some info) : (gid, info) ∈ ml := by
  induction ml with
  | nil => simp [dictGet] at h
  | cons kv rest ih =>
    by_cases hk : kv.1 = gid
    · rw [dictGet, if_pos hk] at h
      have hkv : kv = (gid, info) := by
        obtain ⟨k1, k2⟩ := kv
        simp only at hk
        simp_all
      exact hkv ▸ List.mem_cons_self kv rest
    · rw [dictGet, if_neg hk] at h
      exact List.mem_cons_of_mem _ (ih h)

/-- Items put in place by one subscribe critical section: either untouched,
or a fresh record with the one subscriber, or the old record with the
subscriber appended. -/
theorem subscribeStore_pred {P : Item → Prop}
    (hnew : ∀ gid gname origin : String,
      P { newItem gid gname with subscribers := ([] : List String) ++ [origin] })
    (hext : ∀ (v : Item) (origin : String),
      P v → P { v with subscribers := v.subscribers ++ [origin] })
    (gid gname origin : String) {ml : Store} (h : ∀ kv ∈ ml, P kv.2) :
    ∀ kv ∈ (subscribeStore gid gname origin ml).1, P kv.2 := by
  cases hget : dictGet ml gid with
  | none =>
    simp only [subscribeStore, hget, dictGet_set_self, newItem,
      List.not_mem_nil, if_false, dictSet_set_same]
    intro kv hkv
    rcases mem_dictSet hkv with he | he
    · rw [he]
      exact hnew gid gname origin
    · exact h kv he
  | some info =>
    simp only [subscribeStore, hget]
    split_ifs with hmem
    · exact h
    · intro kv hkv
      rcases mem_dictSet hkv with he | he
      · rw [he]
        exact hext info origin (h (gid, info) (dictGet_mem hget))
      · exact h kv he

/-- Items left by one unsubscribe critical section: untouched, removed, or
the old record with one subscriber erased (only when the erased list is
still non-empty). -/
theorem unsubscribeStore_pred {P : Item → Prop} {gid origin : String}
    {ml : Store}
    (hupd : ∀ v : Item, P v → v.subscribers.erase origin ≠ [] →
       P { v with subscribers := v.subscribers.erase origin })
    (h : ∀ kv ∈ ml, P kv.2) :
    ∀ kv ∈ (unsubscribeStore gid origin ml).1, P kv.2 := by
  cases hget : dictGet ml gid with
  | none => simpa [unsubscribeStore, hget] using h
  | some info =>
    have hinfo : P info := h (gid, info) (dictGet_mem hget)
    simp only [unsubscribeStore, hget]
    split_ifs with hmem hemp
    · intro kv hkv
      exact h kv (List.mem_of_mem_filter hkv)
    · intro kv hkv
      rcases mem_dictSet hkv with he | he
      · rw [he]
        exact hupd info hinfo (fun hh => hemp (by simp [hh]))
      · exact h kv he
    · exact h

theorem dictUpdatePrice_pred {P : Item → Prop}
    (hupd : ∀ (p : PriceData) (v : Item), P v → P (updPrice p v))
    (gid : String) (p : PriceData) {ml : Store} (h : ∀ kv ∈ ml, P kv.2) :
    ∀ kv ∈ dictUpdatePrice gid p ml, P kv.2 := by
  intro kv hkv
  rcases List.mem_map.mp hkv with ⟨kw, hkw, heq⟩
  by_cases hk : kw.1 = gid
  · rw [if_pos hk] at heq
    rw [← heq]
    exact hupd p kw.2 (h kw hkw)
  · rw [if_neg hk] at heq
    rw [← heq]
    exact h kw hkw

/-- The store an engine item-step leaves behind: unchanged or a price
update of one key. -/
theorem monitorItem_store (fetch : String → String → Option PriceData)
    (gid : String) (info : Item) (acc : Store) :
    (monitorItem fetch gid info acc).store = acc ∨
    ∃ p, (monitorItem fetch gid info acc).store = dictUpdatePrice gid p acc := by
  cases h : fetch gid (info.region.getD "cn") with
  | none => left; simp [monitorItem, h]
  | some p =>
    cases hlp : info.last_price with
    | none => right; exact ⟨p, by simp [monitorItem, h, hlp]⟩
    | some lp =>
      by_cases hd : p.current_price - lp ≠ 0
      · right; exact ⟨p, by simp [monitorItem, h, hlp, hd]⟩
      · left; simp [monitorItem, h, hlp, hd]

theorem monitorRound_pred {P : Item → Prop}
    (hupd : ∀ (p : PriceData) (v : Item), P v → P (updPrice p v))
    (fetch : String → String → Option PriceData) :
    ∀ (items : List (String × Item)) (acc : Store),
      (∀ kv ∈ acc, P kv.2) →
      ∀ kv ∈ (monitorRound fetch items acc).store, P kv.2
  | [], _, h => by simpa [monitorRound] using h
  | (gid, info) :: rest, acc, h => by
    have hstep : ∀ kv ∈ (monitorItem fetch gid info acc).store, P kv.2 := by
      rcases monitorItem_store fetch gid info acc with he | ⟨p, he⟩
      · rw [he]; exact h
      · rw [he]; exact dictUpdatePrice_pred hupd gid p h
    by_cases hok : (monitorItem fetch gid info acc).ok = true
    · simpa [monitorRound, hok] using
        monitorRound_pred hupd fetch rest (monitorItem fetch gid info acc).store hstep
    · simpa [monitorRound, hok] using hstep

/-- No monitored item has an empty subscriber list. -/
def NoEmptySubs (ml : Store) : Prop :=
  ∀ kv ∈ ml, kv.2.subscribers ≠ []

/-- C3: Removing the last subscriber deletes the MonitoredItem entirely
(the identifier is gone from the persisted mapping, hence from every later
enumeration); moreover the no-empty-subscriber-set invariant is preserved
by subscribe, by unsubscribe, and by a full engine round. -/
theorem C3_empty_items_never_persist (gid origin : String) (ml : Store) :
    (∀ info, dictGet ml gid = some info → origin ∈ info.subscribers →
       info.subscribers.erase origin = [] →
       dictGet (unsubscribeStore gid origin ml).1 gid = none ∧
       gid ∉ ((unsubscribeStore gid origin ml).1).map Prod.fst) ∧
    (NoEmptySubs ml →
       (∀ gname, NoEmptySubs (subscribeStore gid gname origin ml).1) ∧
       NoEmptySubs (unsubscribeStore gid origin ml).1 ∧
       (∀ fetch, NoEmptySubs (monitorPrices fetch ml).store)) := by
  constructor
  · intro info hget hmem herase
    have hemp : (info.subscribers.erase origin).isEmpty = true := by
      simp [herase]
    simp only [unsubscribeStore, hget, hmem, if_true, hemp]
    exact ⟨dictGet_remove_self gid ml, key_not_mem_remove gid ml⟩
  · intro hne
    refine ⟨?_, ?_, ?_⟩
    · intro gname
      exact @subscribeStore_pred (fun v => v.subscribers ≠ [])
        (by simp [newItem]) (by simp) gid gname origin ml hne
    · exact @unsubscribeStore_pred (fun v => v.subscribers ≠ [])
        gid origin ml (fun v _ hv => by simpa using hv) hne
    · intro fetch
      exact @monitorRound_pred (fun v => v.subscribers ≠ [])
        (fun p v hv => by simpa [updPrice] using hv) fetch ml ml hne

/-- Witness for C3: alice is the sole subscriber of AppID "100"; her
unsubscribe deletes the record, and the invariant holds for the fixture. -/
theorem C3_empty_items_never_persist_witness :
    dictGet (unsubscribeStore "100" "p:FriendMessage:alice" engineStore0).1
        "100" = none ∧
    "100" ∉ ((unsubscribeStore "100" "p:FriendMessage:alice"
        engineStore0).1).map Prod.fst :=
  (C3_empty_items_never_persist "100" "p:FriendMessage:alice" engineStore0).1
    engineItem (by decide) (by decide) (by decide)

/-! ## Frame lemmas for the engine round -/

theorem dictGet_updatePrice_self (gid : String) (p : PriceData) (ml : Store) :
    dictGet (dictUpdatePrice gid p ml) gid =
      (dictGet ml gid).map (updPrice p) := by
  induction ml with
  | nil => simp [dictGet, dictUpdatePrice]
  | cons kv rest ih =>
    by_cases hk : kv.1 = gid
    · simp [dictGet, dictUpdatePrice, hk]
    · simpa [dictGet, dictUpdatePrice, hk] using ih

theorem dictGet_updatePrice_other {gid g : String} (h : gid ≠ g)
    (p : PriceData) (ml : Store) :
    dictGet (dictUpdatePrice gid p ml) g = dictGet ml g := by
  have h' : ¬(g = gid) := fun he => h he.symm
  induction ml with
  | nil => simp [dictGet, dictUpdatePrice]
  | cons kv rest ih =>
    by_cases hk : kv.1 = gid
    · simp only [dictUpdatePrice, List.map_cons, if_pos hk, dictGet, h',
        if_false] at ih ⊢
      simpa [dictGet, hk, h] using ih
    · by_cases hg : kv.1 = g
      · simp [dictGet, dictUpdatePrice, hk, hg, h']
      · simp only [dictUpdatePrice, List.map_cons, if_neg hk] at ih ⊢
        simpa [dictGet, hk, hg] using ih

theorem notifySubs_gameId (gid : String) (kind : ChangeKind) (oldP : ℚ)
    (p : PriceData) :
    ∀ subs, ∀ n ∈ (notifySubs gid kind oldP p subs).1, n.gameId = gid
  | [], n, hn => by simp [notifySubs] at hn
  | sub :: rest, n, hn => by
    cases hpo : parseUnifiedOrigin sub with
    | none => simp [notifySubs, hpo] at hn
    | some po =>
      simp only [notifySubs, hpo] at hn
      rcases List.mem_append.mp hn with h2 | h2
      · split_ifs at h2 <;> simp_all
      · exact notifySubs_gameId gid kind oldP p rest n h2

/-- An engine step for key `gid'` leaves any other key's entry alone (in
the dict and in every snapshot it writes) and stamps all its notifications
with `gid'`. -/
theorem monitorItem_frame {gid' gid : String} (hne : gid' ≠ gid)
    (fetch : String → String → Option PriceData) (info : Item) (acc : Store) :
    dictGet (monitorItem fetch gid' info acc).store gid = dictGet acc gid ∧
    (∀ n ∈ (monitorItem fetch gid' info acc).notifs, n.gameId = gid') ∧
    (∀ w ∈ (monitorItem fetch gid' info acc).writes,
       dictGet w gid = dictGet acc gid) := by
  cases h : fetch gid' (info.region.getD "cn") with
  | none => simp [monitorItem, h]
  | some p =>
    cases hlp : info.last_price with
    | none =>
      simp [monitorItem, h, hlp, dictGet_updatePrice_other hne]
    | some lp =>
      by_cases hd : p.current_price - lp ≠ 0
      · refine ⟨?_, ?_, ?_⟩
        · simp [monitorItem, h, hlp, hd, dictGet_updatePrice_other hne]
        · intro n hn
          have hn' : n ∈ (notifySubs gid' (if p.is_free then .free
              else if p.current_price - lp > 0 then .increase else .decrease)
              lp p info.subscribers).1 := by
            simpa [monitorItem, h, hlp, hd] using hn
          exact notifySubs_gameId _ _ _ _ _ n hn'
        · intro w hw
          have hw' : w = dictUpdatePrice gid' p acc := by
            simpa [monitorItem, h, hlp, hd] using hw
          rw [hw']
          exact dictGet_updatePrice_other hne p acc
      · simp [monitorItem, h, hlp, hd]

/-- A round over items not containing key `gid` leaves `gid`'s entry alone
everywhere and emits no notification for it. -/
theorem monitorRound_frame (fetch : String → String → Option PriceData) :
    ∀ (items : List (String × Item)) (acc : Store) (gid : String),
      gid ∉ items.map Prod.fst →
      dictGet (monitorRound fetch items acc).store gid = dictGet acc gid ∧
      (∀ n ∈ (monitorRound fetch items acc).notifs, n.gameId ≠ gid) ∧
      (∀ w ∈ (monitorRound fetch items acc).writes,
         dictGet w gid = dictGet acc gid)
  | [], acc, gid, _ => by simp [monitorRound]
  | (g, info) :: rest, acc, gid, h => by
    have hg : g ≠ gid := fun he => h (by simp [he])
    have hrest : gid ∉ rest.map Prod.fst := fun he => h (by simp [he])
    obtain ⟨hs, hn, hw⟩ := monitorItem_frame hg fetch info acc
    by_cases hok : (monitorItem fetch g info acc).ok = true
    · obtain ⟨hs', hn', hw'⟩ := monitorRound_frame fetch rest
        (monitorItem fetch g info acc).store gid hrest
      simp only [monitorRound, hok, if_true]
      refine ⟨hs'.trans hs, ?_, ?_⟩
      · intro n hn2
        rcases List.mem_append.mp hn2 with h2 | h2
        · rw [hn n h2]; exact hg
        · exact hn' n h2
      · intro w hw2
        rcases List.mem_append.mp hw2 with h2 | h2
        · exact hw w h2
        · exact (hw' w h2).trans hs
    · simp only [monitorRound, hok, if_false]
      refine ⟨hs, ?_, hw⟩
      intro n hn2
      rw [hn n hn2]
      exact hg

/-- Splitting a round at a list append: the second half runs from the first
half's store when the first half did not abort. -/
theorem monitorRound_append (fetch : String → String → Option PriceData) :
    ∀ (l1 l2 : List (String × Item)) (acc : Store),
      monitorRound fetch (l1 ++ l2) acc =
        (if (monitorRound fetch l1 acc).ok then
          { store := (monitorRound fetch l2 (monitorRound fetch l1 acc).store).store,
            notifs := (monitorRound fetch l1 acc).notifs ++
              (monitorRound fetch l2 (monitorRound fetch l1 acc).store).notifs,
            writes := (monitorRound fetch l1 acc).writes ++
              (monitorRound fetch l2 (monitorRound fetch l1 acc).store).writes,
            ok := (monitorRound fetch l2 (monitorRound fetch l1 acc).store).ok }
        else monitorRound fetch l1 acc)
  | [], l2, acc => by simp [monitorRound]
  | (g, info) :: rest, l2, acc => by
    by_cases hok : (monitorItem fetch g info acc).ok = true
    · rw [List.cons_append]
      simp only [monitorRound, hok, if_true,
        monitorRound_append fetch rest l2 (monitorItem fetch g info acc).store]
      by_cases hok2 :
          (monitorRound fetch rest (monitorItem fetch g info acc).store).ok = true
      · simp [hok2, List.append_assoc]
      · simp [hok2]
    · rw [List.cons_append]
      simp [monitorRound, hok]

/-- C2: For a monitored item whose `last_price` is uninitialized, the
first successful poll of the item (reached, i.e. the items before it in the
round did not abort) writes the fetched snapshot as baseline into the store,
persists a file snapshot carrying it, and emits no notification event for
that item in the whole round — regardless of the fetched price `p`. -/
theorem C2_first_poll_baseline
    (fetch : String → String → Option PriceData)
    (pre post : List (String × Item)) (gid : String) (info : Item)
    (p : PriceData)
    (hpre : gid ∉ pre.map Prod.fst) (hpost : gid ∉ post.map Prod.fst)
    (hf : fetch gid (info.region.getD "cn") = some p)
    (hlp : info.last_price = none)
    (hok : (monitorRound fetch pre (pre ++ (gid, info) :: post)).ok = true) :
    dictGet (monitorPrices fetch (pre ++ (gid, info) :: post)).store gid =
      some (updPrice p info) ∧
    (∀ n ∈ (monitorPrices fetch (pre ++ (gid, info) :: post)).notifs,
       n.gameId ≠ gid) ∧
    (∃ w ∈ (monitorPrices fetch (pre ++ (gid, info) :: post)).writes,
       dictGet w gid = some (updPrice p info)) := by
  set ml := pre ++ (gid, info) :: post with hml
  have hmlget : dictGet ml gid = some info := by
    rw [hml, dictGet_append_of_not_mem _ hpre]
    simp [dictGet]
  obtain ⟨hs1, hn1, hw1⟩ := monitorRound_frame fetch pre ml gid hpre
  set A := (monitorRound fetch pre ml).store with hA
  have hstep : monitorItem fetch gid info A =
      { store := dictUpdatePrice gid p A, notifs := [],
        writes := [dictUpdatePrice gid p A], ok := true } := by
    simp [monitorItem, hf, hlp]
  have hupd : dictGet (dictUpdatePrice gid p A) gid = some (updPrice p info) := by
    rw [dictGet_updatePrice_self, hA, hs1, hmlget, Option.map_some']
  obtain ⟨hs2, hn2, hw2⟩ :=
    monitorRound_frame fetch post (dictUpdatePrice gid p A) gid hpost
  have hinner : monitorRound fetch ((gid, info) :: post) A =
      { store := (monitorRound fetch post (dictUpdatePrice gid p A)).store,
        notifs := (monitorRound fetch post (dictUpdatePrice gid p A)).notifs,
        writes := dictUpdatePrice gid p A ::
          (monitorRound fetch post (dictUpdatePrice gid p A)).writes,
        ok := (monitorRound fetch post (dictUpdatePrice gid p A)).ok } := by
    simp [monitorRound, hstep]
  have hfull : monitorPrices fetch ml =
      { store := (monitorRound fetch post (dictUpdatePrice gid p A)).store,
        notifs := (monitorRound fetch pre ml).notifs ++
          (monitorRound fetch post (dictUpdatePrice gid p A)).notifs,
        writes := (monitorRound fetch pre ml).writes ++
          dictUpdatePrice gid p A ::
            (monitorRound fetch post (dictUpdatePrice gid p A)).writes,
        ok := (monitorRound fetch post (dictUpdatePrice gid p A)).ok } := by
    rw [monitorPrices, hml, monitorRound_append, if_pos hok, ← hml, ← hA, hinner]
  refine ⟨?_, ?_, ?_⟩
  · rw [hfull]
    exact hs2.trans hupd
  · intro n hn
    rw [hfull] at hn
    rcases List.mem_append.mp hn with h2 | h2
    · exact hn1 n h2
    · exact hn2 n h2
  · refine ⟨dictUpdatePrice gid p A, ?_, hupd⟩
    rw [hfull]
    exact List.mem_append.mpr (Or.inr (List.mem_cons_self _ _))

/-- Witness for C2: a store with one uninitialized item; the round records
the baseline, persists it, and yields nothing. -/
theorem C2_first_poll_baseline_witness :
    dictGet (monitorPrices engineFetch [("100", engineItem)]).store "100" =
      some (updPrice engineP engineItem) ∧
    (∀ n ∈ (monitorPrices engineFetch [("100", engineItem)]).notifs,
       n.gameId ≠ "100") ∧
    (∃ w ∈ (monitorPrices engineFetch [("100", engineItem)]).writes,
       dictGet w "100" = some (updPrice engineP engineItem)) :=
  C2_first_poll_baseline engineFetch [] [] "100" engineItem engineP
    (by decide) (by decide) rfl rfl rfl

/-- C7: For a monitored item with an initialized `last_price`, when the
fetched `current_price` equals it (`delta == 0`), the engine neither emits a
notification for the item nor modifies or persists its stored state in that
round: the final store keeps the old record and every file snapshot written
during the round still carries the old record. -/
theorem C7_no_change_no_effect
    (fetch : String → String → Option PriceData)
    (pre post : List (String × Item)) (gid : String) (info : Item)
    (p : PriceData) (lp : ℚ)
    (hpre : gid ∉ pre.map Prod.fst) (hpost : gid ∉ post.map Prod.fst)
    (hf : fetch gid (info.region.getD "cn") = some p)
    (hlp : info.last_price = some lp)
    (hcur : p.current_price = lp)
    (hok : (monitorRound fetch pre (pre ++ (gid, info) :: post)).ok = true) :
    dictGet (monitorPrices fetch (pre ++ (gid, info) :: post)).store gid =
      some info ∧
    (∀ n ∈ (monitorPrices fetch (pre ++ (gid, info) :: post)).notifs,
       n.gameId ≠ gid) ∧
    (∀ w ∈ (monitorPrices fetch (pre ++ (gid, info) :: post)).writes,
       dictGet w gid = some info) := by
  set ml := pre ++ (gid, info) :: post with hml
  have hmlget : dictGet ml gid = some info := by
    rw [hml, dictGet_append_of_not_mem _ hpre]
    simp [dictGet]
  obtain ⟨hs1, hn1, hw1⟩ := monitorRound_frame fetch pre ml gid hpre
  set A := (monitorRound fetch pre ml).store with hA
  have hd : p.current_price - lp = 0 := by rw [hcur, sub_self]
  have hstep : monitorItem fetch gid info A =
      { store := A, notifs := [], writes := [], ok := true } := by
    simp [monitorItem, hf, hlp, hd]
  obtain ⟨hs2, hn2, hw2⟩ := monitorRound_frame fetch post A gid hpost
  have hinner : monitorRound fetch ((gid, info) :: post) A =
      monitorRound fetch post A := by
    simp [monitorRound, hstep]
  have hAget : dictGet A gid = some info := by rw [hA, hs1, hmlget]
  have hfull : monitorPrices fetch ml =
      { store := (monitorRound fetch post A).store,
        notifs := (monitorRound fetch pre ml).notifs ++
          (monitorRound fetch post A).notifs,
        writes := (monitorRound fetch pre ml).writes ++
          (monitorRound fetch post A).writes,
        ok := (monitorRound fetch post A).ok } := by
    rw [monitorPrices, hml, monitorRound_append, if_pos hok, ← hml, ← hA, hinner]
  refine ⟨?_, ?_, ?_⟩
  · rw [hfull]
    exact hs2.trans hAget
  · intro n hn
    rw [hfull] at hn
    rcases List.mem_append.mp hn with h2 | h2
    · exact hn1 n h2
    · exact hn2 n h2
  · intro w hw
    rw [hfull] at hw
    rcases List.mem_append.mp hw with h2 | h2
    · exact (hw1 w h2).trans hmlget
    · exact (hw2 w h2).trans hAget

/-- An already-initialized monitored item whose stored price equals what
the fixture oracle fetches. -/
def engineItemInit : Item :=
  { engineItem with last_price := some 5, original_price := some 20,
                    discount := some 75 }

/-- Witness for C7: the fetched price 5 equals the stored price 5, so the
round leaves the record alone, writes nothing for it and yields nothing. -/
theorem C7_no_change_no_effect_witness :
    dictGet (monitorPrices engineFetch [("100", engineItemInit)]).store "100" =
      some engineItemInit ∧
    (∀ n ∈ (monitorPrices engineFetch [("100", engineItemInit)]).notifs,
       n.gameId ≠ "100") ∧
    (∀ w ∈ (monitorPrices engineFetch [("100", engineItemInit)]).writes,
       dictGet w "100" = some engineItemInit) :=
  C7_no_change_no_effect engineFetch [] [] "100" engineItemInit engineP 5
    (by decide) (by decide) rfl rfl rfl rfl

/-- A failed item is simply skipped by the round: removing it from the item
list changes nothing. -/
theorem monitorRound_skip_failed (fetch : String → String → Option PriceData)
    (gid : String) (info : Item)
    (hf : fetch gid (info.region.getD "cn") = none)
    (pre post : List (String × Item)) (acc : Store) :
    monitorRound fetch (pre ++ (gid, info) :: post) acc =
      monitorRound fetch (pre ++ post) acc := by
  have hstep : ∀ s, monitorRound fetch ((gid, info) :: post) s =
      monitorRound fetch post s := by
    intro s
    simp [monitorRound, monitorItem, hf]
  rw [monitorRound_append fetch pre ((gid, info) :: post) acc,
    monitorRound_append fetch pre post acc, hstep]

/-- C6: `get_steam_price` turns a transport exception, a missing appid
entry, an unsuccessful entry, and a missing price-overview block into the
not-available result (`None`) — the enclosing `try`/`except` means no
exception reaches the caller; and in a round, a fetch failure for one item
neither stops the processing of the other items (the round equals the round
without that item) nor mutates that item's stored snapshot. -/
theorem C6_fetch_failure_isolated :
    (get_steam_price .exc = none ∧
     get_steam_price (.ok none) = none ∧
     (∀ e : AppEntry, e.success = false →
        get_steam_price (.ok (some e)) = none) ∧
     (∀ (e : AppEntry) (gd : GameData), e.data = some gd →
        gd.is_free = false → gd.price_overview = none →
        get_steam_price (.ok (some e)) = none)) ∧
    (∀ (fetch : String → String → Option PriceData)
       (pre post : List (String × Item)) (gid : String) (info : Item)
       (acc : Store),
       fetch gid (info.region.getD "cn") = none →
       monitorRound fetch (pre ++ (gid, info) :: post) acc =
         monitorRound fetch (pre ++ post) acc) ∧
    (∀ (fetch : String → String → Option PriceData)
       (pre post : List (String × Item)) (gid : String) (info : Item),
       gid ∉ pre.map Prod.fst → gid ∉ post.map Prod.fst →
       fetch gid (info.region.getD "cn") = none →
       dictGet (monitorPrices fetch (pre ++ (gid, info) :: post)).store gid =
         some info) := by
  refine ⟨⟨rfl, rfl, ?_, ?_⟩, ?_, ?_⟩
  · intro e hsucc
    simp [get_steam_price, hsucc]
  · intro e gd hdata hfree hpo
    simp [get_steam_price, hdata, hfree, hpo]
  · intro fetch pre post gid info acc hf
    exact monitorRound_skip_failed fetch gid info hf pre post acc
  · intro fetch pre post gid info hpre hpost hf
    have hmlget : dictGet (pre ++ (gid, info) :: post) gid = some info := by
      rw [dictGet_append_of_not_mem _ hpre]
      simp [dictGet]
    rw [monitorPrices, monitorRound_skip_failed fetch gid info hf]
    have hcat : gid ∉ (pre ++ post).map Prod.fst := by
      rw [List.map_append]
      intro hm
      rcases List.mem_append.mp hm with h2 | h2
      · exact hpre h2
      · exact hpost h2
    obtain ⟨hs, _, _⟩ :=
      monitorRound_frame fetch (pre ++ post) (pre ++ (gid, info) :: post) gid hcat
    rw [hs]
    exact hmlget

/-- An unsuccessful appdetails entry. -/
def entryFail : AppEntry := { success := false, data := none }

/-- A paid game without a `price_overview` block. -/
def gdNoPrice : GameData := { is_free := false, price_overview := none }

/-- A successful appdetails entry without a `price_overview` block. -/
def entryNoPrice : AppEntry := { success := true, data := some gdNoPrice }

/-- Witness for C6 at concrete inputs: an unsuccessful response and a
missing price overview map to `None`; with an all-failing oracle the round
over one item equals the empty round and leaves the item untouched. -/
theorem C6_fetch_failure_isolated_witness :
    get_steam_price (.ok (some entryFail)) = none ∧
    get_steam_price (.ok (some entryNoPrice)) = none ∧
    monitorRound (fun _ _ => none) ([] ++ ("100", engineItem) :: []) [] =
      monitorRound (fun _ _ => none) ([] ++ []) [] ∧
    dictGet (monitorPrices (fun _ _ => none)
      ([] ++ ("100", engineItem) :: [])).store "100" = some engineItem :=
  ⟨C6_fetch_failure_isolated.1.2.2.1 entryFail rfl,
   C6_fetch_failure_isolated.1.2.2.2 entryNoPrice gdNoPrice rfl rfl rfl,
   C6_fetch_failure_isolated.2.1 (fun _ _ => none) [] [] "100" engineItem [] rfl,
   C6_fetch_failure_isolated.2.2 (fun _ _ => none) [] [] "100" engineItem
     (by decide) (by decide) rfl⟩

/-! ## C8: the subscriber-address parse is not total -/

/-- C8 counterexample: Parsing the address `"abc"` — fewer than three
colon-separated fields — does not return any tagged variant: the source
indexes `parts[2]` unconditionally and raises `IndexError` (modelled
`none`), refuting totality/never-throws on every input string. -/
theorem C8_counterexample : parseUnifiedOrigin "abc" = none := by decide

/-- C8 amended: The parse returns a tagged result for every input
with at least three colon-separated fields whose identifier field (when the
message type is `"GroupMessage"`) holds at most one underscore; an input
with fewer than three colon-separated fields raises instead of resolving to
a safe unknown variant. -/
theorem C8_parse_amended (s : String) :
    (3 ≤ (pySplit s ':').length →
      ((pySplit s ':').getD 1 "" = "GroupMessage" →
        (pySplit ((pySplit s ':').getD 2 "") '_').length = 1 ∨
        (pySplit ((pySplit s ':').getD 2 "") '_').length = 2) →
      (parseUnifiedOrigin s).isSome = true) ∧
    ((pySplit s ':').length < 3 → parseUnifiedOrigin s = none) := by
  constructor
  · intro hlen hgm
    simp only [List.getD] at hgm
    simp only [parseUnifiedOrigin, List.getD]
    rw [if_neg (by omega)]
    by_cases h1 : ((pySplit s ':').get? 1).getD "" = "FriendMessage"
    · rw [if_pos h1]
      rfl
    · rw [if_neg h1]
      by_cases h2 : ((pySplit s ':').get? 1).getD "" = "GroupMessage"
      · rw [if_pos h2]
        rcases hgm h2 with hl | hl
        · rw [if_neg (by omega), if_pos hl]
          rfl
        · rw [if_pos hl]
          rfl
      · rw [if_neg h2]
        rfl
  · intro hlen
    simp [parseUnifiedOrigin, hlen]

/-- Witness for C8 (amended): a well-formed group-message address with user
and group identifiers parses to a tagged result. -/
theorem C8_parse_amended_witness :
    (parseUnifiedOrigin "aiocqhttp:GroupMessage:12_34").isSome = true :=
  (C8_parse_amended "aiocqhttp:GroupMessage:12_34").1 (by decide) (by decide)

/-! ## C5: the fuzzy resolver's universe handling -/

/-- A stand-in similarity scorer for concrete runs: 100 on equal strings,
0 otherwise (`fuzz.token_set_ratio` likewise scores equal strings 100). -/
def scoreExact : String → String → ℕ := fun q n => if q = n then 100 else 0

/-- C5 counterexample: Resolution against a caller-supplied *empty*
universe does not return not-found: Python's `if not target_dict:` treats
the empty dict like `None` and substitutes the full catalog
`app_dict_all`, so the query matches a catalog entry — a name that is not a
key of the supplied universe. -/
theorem C5_counterexample :
    get_appid_by_name scoreExact "Cyberpunk 2077" []
        [("Cyberpunk 2077", 1091500)] = some (1091500, "Cyberpunk 2077") ∧
    "Cyberpunk 2077" ∉ ([] : NameDict).map Prod.fst := by decide

theorem extractOne_aux (score : String → String → ℕ) (q : String) :
    ∀ (cs : List String) (acc : Option (String × ℕ)) (b : String) (sb : ℕ),
      cs.foldl (extractStep score q) acc = some (b, sb) →
      acc = some (b, sb) ∨ (b ∈ cs ∧ sb = score q b)
  | [], _, b, sb, h => Or.inl (by simpa using h)
  | c :: cs, acc, b, sb, h => by
    rw [List.foldl_cons] at h
    rcases extractOne_aux score q cs (extractStep score q acc c) b sb h with
      h1 | h1
    · cases acc with
      | none =>
        simp only [extractStep, Option.some.injEq, Prod.mk.injEq] at h1
        exact Or.inr ⟨h1.1 ▸ List.mem_cons_self c cs, h1.1 ▸ h1.2.symm⟩
      | some p =>
        obtain ⟨b0, s0⟩ := p
        by_cases hgt : score q c > s0
        · simp only [extractStep, hgt, if_true, Option.some.injEq,
            Prod.mk.injEq] at h1
          exact Or.inr ⟨h1.1 ▸ List.mem_cons_self c cs, h1.1 ▸ h1.2.symm⟩
        · simp only [extractStep, hgt, if_false, Option.some.injEq,
            Prod.mk.injEq] at h1
          exact Or.inl (by simp [h1.1, h1.2])
    · exact Or.inr ⟨List.mem_cons_of_mem _ h1.1, h1.2⟩

/-- The model of `process.extractOne` returns one of its choices, together with that
choice's own score. -/
theorem extractOne_spec {score : String → String → ℕ} {q : String}
    {choices : List String} {b : String} {sb : ℕ}
    (h : extractOne score q choices = some (b, sb)) :
    b ∈ choices ∧ sb = score q b := by
  rcases extractOne_aux score q choices none b sb h with h1 | h1
  · simp at h1
  · exact h1

theorem nameDictGet_isSome_of_mem {d : NameDict} {nm : String}
    (h : nm ∈ d.map Prod.fst) : ∃ v, nameDictGet d nm = some v := by
  induction d with
  | nil => simp at h
  | cons kv rest ih =>
    by_cases hk : kv.1 = nm
    · exact ⟨kv.2, by simp [nameDictGet, hk]⟩
    · rw [nameDictGet, if_neg hk]
      apply ih
      rw [List.map_cons, List.mem_cons] at h
      rcases h with h2 | h2
      · exact absurd h2.symm hk
      · exact h2

/-- C5 amended: A returned pair comes from the *effective* universe:
the caller's `target_dict` when that is non-empty, otherwise the full
catalog substituted by `if not target_dict:`.  The matched name is a key of
the effective universe, the identifier is its value there, and the score of
the query against it is ≥ 70; not-found is returned only when the best
score is below 70 or both dictionaries are empty. -/
theorem C5_resolver_amended (score : String → String → ℕ) (q : String)
    (td cat : NameDict) (appid : ℕ) (nm : String)
    (h : get_appid_by_name score q td cat = some (appid, nm)) :
    nm ∈ (if td.isEmpty then cat else td).map Prod.fst ∧
    nameDictGet (if td.isEmpty then cat else td) nm = some appid ∧
    70 ≤ score q nm := by
  simp only [get_appid_by_name] at h
  set eff := if td.isEmpty then cat else td with heff
  by_cases hemp : eff.isEmpty
  · rw [if_pos hemp] at h
    exact absurd h (by simp)
  · rw [if_neg hemp] at h
    cases hext : extractOne score q (eff.map Prod.fst) with
    | none =>
      rw [hext] at h
      simp at h
    | some ms =>
      obtain ⟨mn, sc⟩ := ms
      rw [hext] at h
      dsimp only at h
      by_cases hsc : sc ≥ 70
      · rw [if_pos hsc, Option.some.injEq, Prod.mk.injEq] at h
        obtain ⟨hb, hsb⟩ := extractOne_spec hext
        obtain ⟨v, hv⟩ := nameDictGet_isSome_of_mem hb
        refine ⟨h.2 ▸ hb, ?_, ?_⟩
        · rw [← h.2, hv, ← h.1, hv]
          simp
        · rw [← h.2, ← hsb]
          exact hsc
      · rw [if_neg hsc] at h
        exact absurd h (by simp)

/-- Witness for C5 (amended) at a concrete non-empty universe: the match
comes from the caller's own dictionary. -/
theorem C5_resolver_amended_witness :
    "X" ∈ (if ([("X", 7)] : NameDict).isEmpty then ([] : NameDict)
      else [("X", 7)]).map Prod.fst ∧
    nameDictGet (if ([("X", 7)] : NameDict).isEmpty then ([] : NameDict)
      else [("X", 7)]) "X" = some 7 ∧
    70 ≤ scoreExact "X" "X" :=
  C5_resolver_amended scoreExact "X" [("X", 7)] [] 7 "X" (by decide)

/-! ## C9: when the catalog sync overwrites the durable snapshot -/

/-- C9 counterexample: A transport error (HTTP 500) on the *second*
page mid-sync does not leave the previously persisted snapshot unchanged:
the loop merely `break`s, the partial accumulation from page one is still
processed and written over `game_list.json`, replacing the old snapshot. -/
theorem C9_counterexample :
    (get_app_list
      [Page.ok 200 (some { apps := [("A", 1)], have_more_results := true }),
       Page.ok 500 none]
      (some [("Old", 99)])).file = some [("A", 1)] ∧
    ([("A", 1)] : NameDict) ≠ [("Old", 99)] := by decide

/-- C9 amended: Only a raised transport/format *exception* aborts the
sync with the durable snapshot unchanged (with the persisted snapshot then
loaded back as the in-memory fallback); a non-200 status or a malformed
body mid-sync stops the pagination but still overwrites the durable
snapshot with the dictionary built from the partial accumulation. -/
theorem C9_sync_overwrite_amended (pages : List Page)
    (file0 : Option NameDict) :
    (fetchLoop pages [] = none → (get_app_list pages file0).file = file0) ∧
    (∀ apps, fetchLoop pages [] = some apps →
       (get_app_list pages file0).file = some (dictOfApps apps)) := by
  constructor
  · intro h
    simp only [get_app_list, h]
    cases file0 <;> simp
  · intro apps h
    simp only [get_app_list, h]
    by_cases hemp : (dictOfApps apps).isEmpty <;> simp [hemp]

/-- Witness for C9 (amended): an exception on the first page leaves the old
snapshot in place. -/
theorem C9_sync_overwrite_amended_witness :
    (get_app_list [Page.exc] (some [("O", 5)])).file = some [("O", 5)] :=
  (C9_sync_overwrite_amended [Page.exc] (some [("O", 5)])).1 rfl

/-! ## C10: the region is the fixed constant "cn" -/

/-- Every item of the store carries the region code `"cn"`. -/
def AllCn (ml : Store) : Prop :=
  ∀ kv ∈ ml, kv.2.region = some "cn"

/-- Rounds driven by two oracles that agree on region `"cn"` coincide on
stores whose items all carry region `"cn"`: the poll of each item queries
exactly the item's region, which is `"cn"`. -/
theorem monitorRound_region_agree
    (fetch fetch' : String → String → Option PriceData)
    (hagree : ∀ g, fetch g "cn" = fetch' g "cn") :
    ∀ (items : List (String × Item)) (acc : Store),
      (∀ kv ∈ items, kv.2.region = some "cn") →
      monitorRound fetch items acc = monitorRound fetch' items acc
  | [], _, _ => rfl
  | (g, info) :: rest, acc, h => by
    have hr : info.region = some "cn" := h (g, info) (List.mem_cons_self _ _)
    have hrest : ∀ kv ∈ rest, kv.2.region = some "cn" :=
      fun kv hkv => h kv (List.mem_cons_of_mem _ hkv)
    have hstep : monitorItem fetch g info acc = monitorItem fetch' g info acc := by
      simp only [monitorItem, hr, Option.getD_some, hagree g]
    have hrec := monitorRound_region_agree fetch fetch' hagree rest
    simp only [monitorRound, hstep]
    rw [hrec _ hrest]

/-- C10: The subscribe command creates every new MonitoredItem with the
fixed region constant `"cn"` (never user input); the all-"cn" invariant is
preserved by subscribe, unsubscribe and the engine round; and on an
all-"cn" store the engine round queries the price oracle only at region
`"cn"` — two oracles agreeing there produce identical rounds. -/
theorem C10_region_fixed_cn (gid gname origin : String) (ml : Store) :
    (dictGet ml gid = none →
       (dictGet (subscribeStore gid gname origin ml).1 gid).map Item.region =
         some (some "cn")) ∧
    (AllCn ml →
       AllCn (subscribeStore gid gname origin ml).1 ∧
       AllCn (unsubscribeStore gid origin ml).1 ∧
       (∀ fetch, AllCn (monitorPrices fetch ml).store)) ∧
    (∀ (fetch fetch' : String → String → Option PriceData),
       (∀ g, fetch g "cn" = fetch' g "cn") → AllCn ml →
       monitorPrices fetch ml = monitorPrices fetch' ml) := by
  refine ⟨?_, ?_, ?_⟩
  · intro hget
    simp [subscribeStore, hget, dictGet_set_self, dictSet_set_same, newItem]
  · intro hcn
    refine ⟨?_, ?_, ?_⟩
    · exact @subscribeStore_pred (fun v => v.region = some "cn")
        (by simp [newItem]) (by simp) gid gname origin ml hcn
    · exact @unsubscribeStore_pred (fun v => v.region = some "cn")
        gid origin ml (fun v hv _ => by simpa using hv) hcn
    · intro fetch
      exact @monitorRound_pred (fun v => v.region = some "cn")
        (fun p v hv => by simpa [updPrice] using hv) fetch ml ml hcn
  · intro fetch fetch' hagree hcn
    exact monitorRound_region_agree fetch fetch' hagree ml ml hcn

/-- Witness for C10: creating a subscription in an empty store yields a
record with region `"cn"`, and the fixture round is oracle-independent off
region `"cn"`. -/
theorem C10_region_fixed_cn_witness :
    (dictGet (subscribeStore "100" "G" "p:FriendMessage:alice" []).1
        "100").map Item.region = some (some "cn") ∧
    monitorPrices engineFetch engineStore0 =
      monitorPrices (fun g r => if r = "cn" then engineFetch g "cn" else none)
        engineStore0 :=
  ⟨(C10_region_fixed_cn "100" "G" "p:FriendMessage:alice" []).1 rfl,
   (C10_region_fixed_cn "100" "G" "p:FriendMessage:alice" engineStore0).2.2
     engineFetch (fun g r => if r = "cn" then engineFetch g "cn" else none)
     (fun _ => rfl)
     (by intro kv hkv; simp [engineStore0, engineItem] at hkv; simp [hkv, engineItem])⟩

end SteamSaleTracker
